import Mathlib

/-!
Verification development for the asset reference-data registry
(`zipline/assets/assets.py`): the relational storage model, by-sid record
retrieval, temporal symbol resolution (database-backed and in-memory),
fuzzy matching, futures-chain resolution, generic identifier resolution,
and the metadata ingestion filter.

Modelling conventions:
* sqlite rows are Lean structures; a nullable column is an `Option`;
  a table is a `List` of rows in insertion (rowid) order; a full-table
  scan returns rows in that order.
* pandas timestamps are modelled by their integer nanosecond value
  (`Timestamp.value`); `normalize_date` is assumed already applied, so an
  as-of date is just an `Int`.
* SQL comparisons follow SQL semantics: a comparison with NULL is not
  satisfied, so rows with a NULL operand drop out of a WHERE clause.
* Python sorting (`sorted`, sqlite ORDER BY) is modelled with Mathlib's
  stable `List.insertionSort`.  sqlite leaves the relative order of
  ORDER-BY ties unspecified; the model fixes the stable order, and the
  claim-level theorems do not depend on the order of ties.
* Python 2 orders `None` below every other value; `nullMinLe` captures
  this and also sqlite's NULLs-smallest ordering.
-/

/-- SQL `a <= b` where the left operand is a nullable column:
NULL never satisfies a comparison. -/
def sqlLeB (a : Option Int) (b : Int) : Bool :=
  match a with
  | some x => x ≤ b
  | none => false

/-- SQL `a >= b` where the left operand is a nullable column. -/
def sqlGeB (a : Option Int) (b : Int) : Bool :=
  match a with
  | some x => x ≥ b
  | none => false

/-- Ordering on nullable integers with `none` smallest: Python 2's
`None < anything` and sqlite's NULLs-first (ascending) convention. -/
def nullMinLe : Option Int → Option Int → Bool
  | none, _ => true
  | some _, none => false
  | some a, some b => a ≤ b

/-- Python truthiness of a nullable integer column value: `None` and `0`
are falsy (`if data[col]:` in the source). -/
def truthyNano : Option Int → Bool
  | none => false
  | some v => v ≠ 0

/-- Row of the `equities` table (all columns as created by the schema;
every column but `sid` is nullable). -/
structure EquityRow where
  sid : Int
  symbol : Option String
  asset_name : Option String
  start_date_nano : Option Int
  end_date_nano : Option Int
  first_traded_nano : Option Int
  exchange : Option String
deriving Repr, DecidableEq

/-- Row of the `futures` table. -/
structure FutureRow where
  sid : Int
  symbol : Option String
  asset_name : Option String
  start_date_nano : Option Int
  end_date_nano : Option Int
  first_traded_nano : Option Int
  exchange : Option String
  root_symbol : Option String
  notice_date_nano : Option Int
  expiration_date_nano : Option Int
  contract_multiplier : Option Rat
deriving Repr, DecidableEq

/-- Row of the `asset_router` table. -/
structure RouterRow where
  sid : Int
  asset_type : String
deriving Repr, DecidableEq

/-- The three tables created by `AssetFinder.__init__`. -/
structure Store where
  equities : List EquityRow
  futures : List FutureRow
  router : List RouterRow
deriving Repr, DecidableEq

def emptyStore : Store := ⟨[], [], []⟩

/-- Modelled from the spec: the typed record constructors
(`zipline.assets._assets.Equity` / `Future`) are not under `src/`; per the
spec's data model, a record's field is populated from the identically
named key of the entry mapping, an absent key yields an absent field, and
keys that are not record fields are ignored (in particular the
`first_traded_nano` key that `equity_for_id` passes through unrenamed). -/
structure EquityRec where
  sid : Int
  symbol : Option String
  asset_name : Option String
  start_date : Option Int
  end_date : Option Int
  first_traded : Option Int
  exchange : Option String
deriving Repr, DecidableEq

/-- Typed futures record, modelled like `EquityRec` (see its doc). -/
structure FutureRec where
  sid : Int
  symbol : Option String
  asset_name : Option String
  start_date : Option Int
  end_date : Option Int
  first_traded : Option Int
  exchange : Option String
  root_symbol : Option String
  notice_date : Option Int
  expiration_date : Option Int
  contract_multiplier : Option Rat
deriving Repr, DecidableEq

/-- Timestamp reconstruction in `equity_for_id` / `futures_contract_for_id`:
`if data[col_nano]: data[col] = pd.Timestamp(data[col_nano], tz=UTC)`.
A stored NULL or a stored `0` is falsy, so the reconstructed timestamp
field stays absent in those cases. -/
def tsOfNano (v : Option Int) : Option Int :=
  if truthyNano v then v else none

/-- The `Equity` record built by `equity_for_id` from a fetched row:
`start_date` / `end_date` reconstructed through `tsOfNano`; the
`first_traded_nano` column is fetched but never renamed to `first_traded`,
so the record's `first_traded` field is never populated. -/
def equityRecOfRow (r : EquityRow) : EquityRec :=
  { sid := r.sid
    symbol := r.symbol
    asset_name := r.asset_name
    start_date := tsOfNano r.start_date_nano
    end_date := tsOfNano r.end_date_nano
    first_traded := none
    exchange := r.exchange }

/-- The `Future` record built by `futures_contract_for_id`: all five
nano columns are reconstructed through `tsOfNano`. -/
def futureRecOfRow (r : FutureRow) : FutureRec :=
  { sid := r.sid
    symbol := r.symbol
    asset_name := r.asset_name
    start_date := tsOfNano r.start_date_nano
    end_date := tsOfNano r.end_date_nano
    first_traded := tsOfNano r.first_traded_nano
    exchange := r.exchange
    root_symbol := r.root_symbol
    notice_date := tsOfNano r.notice_date_nano
    expiration_date := tsOfNano r.expiration_date_nano
    contract_multiplier := r.contract_multiplier }

/-- `equity_for_id(sid)`: `select ... from equities where sid=?` with
`fetchone` (first row in scan order), then timestamp reconstruction. -/
def equityForId (tbl : List EquityRow) (sid : Int) : Option EquityRec :=
  ((tbl.filter (fun r => r.sid == sid)).head?).map equityRecOfRow

/-- `futures_contract_for_id(contract_id)`. -/
def futuresForId (tbl : List FutureRow) (sid : Int) : Option FutureRec :=
  ((tbl.filter (fun r => r.sid == sid)).head?).map futureRecOfRow

/-! ### Database-backed temporal symbol resolution
(`lookup_symbol_resolve_multiple`) -/

/-- WHERE clause of the exact-match query:
`symbol=? and start_date_nano<=? and end_date_nano>=?`. -/
def exactCond (sym : String) (asOf : Int) (r : EquityRow) : Bool :=
  r.symbol == some sym && sqlLeB r.start_date_nano asOf
    && sqlGeB r.end_date_nano asOf

/-- `fetchall` of the exact-match query, in scan order. -/
def exactCandidates (tbl : List EquityRow) (sym : String) (asOf : Int) :
    List EquityRow :=
  tbl.filter (exactCond sym asOf)

/-- WHERE clause of the two fallback queries:
`symbol=? and start_date_nano<=?`. -/
def startedCond (sym : String) (asOf : Int) (r : EquityRow) : Bool :=
  r.symbol == some sym && sqlLeB r.start_date_nano asOf

/-- Zero-candidates fallback: `order by end_date_nano desc limit 1`
(NULL end dates sort last under DESC; ties are returned in scan order by
the stable model sort). -/
def fallbackLatestEnd (tbl : List EquityRow) (sym : String) (asOf : Int) :
    Option EquityRow :=
  ((tbl.filter (startedCond sym asOf)).insertionSort
    (fun x y => nullMinLe y.end_date_nano x.end_date_nano = true)).head?

/-- Outcome of a database-backed symbol lookup: a returned asset (by sid),
a raised zipline error, or a raised Python-level error. -/
inductive DbLookupOutcome where
  | asset (sid : Int)
  | symbolNotFound
  | multipleSymbolsFound
  | sqlSyntaxError
  | pyTypeError
deriving Repr, DecidableEq

/-- The multiple-candidates tie-break query exactly as the source
concatenates it (note the missing space between the string literals
`"... end_date_nano desc"` and `"limit 1"`). -/
def queryMultipleTiebreak : String :=
  "select sid from equities " ++ "where symbol=? " ++
    "and start_date_nano<=? " ++
    "order by start_date_nano desc, end_date_nano desc" ++ "limit 1"

/-- The same query with the space the tie-break evidently intended. -/
def queryMultipleTiebreakIntended : String :=
  "select sid from equities where symbol=? and start_date_nano<=? " ++
    "order by start_date_nano desc, end_date_nano desc limit 1"

/-- `lookup_symbol_resolve_multiple(symbol, as_of_date)` with a supplied
(normalized) as-of date.  Exactly one exact candidate: return it.  Zero:
fall back to the latest-end query, else `SymbolNotFound`.  More than one:
the source executes `queryMultipleTiebreak`, whose fused `desclimit`
token is a sqlite syntax error, so `sqlite3.OperationalError` is raised
(modelled as `sqlSyntaxError`). -/
def dbLookupSymbolAsOf (tbl : List EquityRow) (sym : String) (asOf : Int) :
    DbLookupOutcome :=
  match exactCandidates tbl sym asOf with
  | [c] => .asset c.sid
  | [] =>
    match fallbackLatestEnd tbl sym asOf with
    | some r => .asset r.sid
    | none => .symbolNotFound
  | _ :: _ :: _ => .sqlSyntaxError

/-- `lookup_symbol_resolve_multiple(symbol)` without an as-of date:
`data = c.fetchone()` yields the first matching row (a one-column dict)
or `None`; `if len(data) == 1:` is then true for every non-`None` row, so
the first row is returned no matter how many match, and when no row
matches `len(None)` raises `TypeError`.  The `SymbolNotFound` /
`MultipleSymbolsFound` branches of the source are unreachable. -/
def dbLookupSymbolNoDate (tbl : List EquityRow) (sym : String) :
    DbLookupOutcome :=
  match (tbl.filter (fun r => r.symbol == some sym)).head? with
  | some r => .asset r.sid
  | none => .pyTypeError

/-! ### In-memory symbol resolution (`_lookup_symbol_in_infos`) -/

/-- An already-materialized candidate record as the in-memory resolver
sees it: sid plus validity window (Python `None` for an absent bound). -/
structure SymInfo where
  sid : Int
  start_date : Option Int
  end_date : Option Int
deriving Repr, DecidableEq

/-- Python 2 `x < y` where `x` may be `None` (`None` is below every
value). -/
def pyLtNone (a : Option Int) (b : Int) : Bool :=
  match a with
  | none => true
  | some x => x < b

/-- Candidate condition of the in-memory resolver:
`(start is None or start <= as_of) and (end is None or as_of <= end)` —
an absent bound is unbounded, unlike the SQL exact-match query. -/
def memCandB (asOf : Int) (i : SymInfo) : Bool :=
  (match i.start_date with
   | none => true
   | some s => s ≤ asOf)
  && (match i.end_date with
      | none => true
      | some e => asOf ≤ e)

/-- Python 2 tuple comparison `(start, end) <= (start, end)` with `None`
smallest, as used by the multiple-candidates tie-break sort key. -/
def lexStartEndLe (x y : SymInfo) : Bool :=
  if x.start_date = y.start_date then nullMinLe x.end_date y.end_date
  else nullMinLe x.start_date y.start_date && !(x.start_date == y.start_date)

/-- `infos = sorted(infos, key=attrgetter('end_date'))`: stable sort by
end date, `None` first. -/
def memSorted (infos : List SymInfo) : List SymInfo :=
  infos.insertionSort (fun x y => nullMinLe x.end_date y.end_date = true)

/-- The candidate list of the in-memory resolver: entries of the sorted
info list whose window contains `as_of_date`. -/
def memCandidates (infos : List SymInfo) (asOf : Int) : List SymInfo :=
  (memSorted infos).filter (memCandB asOf)

/-- `_lookup_symbol_in_infos(infos, as_of_date)`: sort by `end_date`
(stable, `None` first), filter to windows containing `as_of_date`, then
the three-way branch.  Zero candidates: last entry (in the end-date
sort) with `end_date < as_of_date`, marked not trading.  Multiple:
stable-sort the candidates by the `(start_date, end_date)` key and take
the last, marked trading. -/
def memLookupInfos (infos : List SymInfo) (asOf : Int) :
    Option SymInfo × Bool :=
  match memCandidates infos asOf with
  | [c] => (some c, true)
  | [] =>
    (((memSorted infos).filter (fun i => pyLtNone i.end_date asOf)).getLast?,
      false)
  | c1 :: c2 :: rest =>
    (((c1 :: c2 :: rest).insertionSort
        (fun x y => lexStartEndLe x y = true)).getLast?,
      true)

/-- Modelled from the spec: the in-memory candidate list a caller
pre-fetches for a symbol (the spec's "already-materialized, non-persisted
list of candidate records") carries, for each stored row of that symbol,
its sid and validity window. -/
def rowToInfo (r : EquityRow) : SymInfo :=
  ⟨r.sid, r.start_date_nano, r.end_date_nano⟩

/-- The in-memory candidate list corresponding to the stored rows of a
symbol. -/
def infosFor (tbl : List EquityRow) (sym : String) : List SymInfo :=
  (tbl.filter (fun r => r.symbol == some sym)).map rowToInfo

/-- Agreement of the database-backed resolver and the in-memory resolver
on the candidate set of one symbol: both name the same sid, or both
report no match. -/
def dbMemAgree (tbl : List EquityRow) (sym : String) (asOf : Int) : Bool :=
  match dbLookupSymbolAsOf tbl sym asOf,
      (memLookupInfos (infosFor tbl sym) asOf).1 with
  | .asset s, some i => s == i.sid
  | .symbolNotFound, none => true
  | _, _ => false

/-! ### Fuzzy matching (`lookup_symbol` with a fuzzy character) -/

/-- Association-list lookup modelling a Python dict read. -/
def alookup {κ β : Type} [DecidableEq κ] (k : κ) :
    List (κ × β) → Option β
  | [] => none
  | (k2, v) :: rest => if k2 = k then some v else alookup k rest

/-- In-process state of the fuzzy path: `sym_cache` (symbol → cached
candidate infos) and `fuzzy_match` (memoized outcomes, `none` for a
cached unresolved outcome). -/
structure FuzzyState where
  symCache : List (String × List SymInfo)
  fuzzyMatch : List ((String × String × Int) × Option SymInfo)
deriving Repr, DecidableEq

/-- Variant order of the fuzzy loop:
`chain((symbol,), (symbol[:i] + fuzzy + symbol[i:] for i in
range(len(symbol) - 1, 0, -1)))` — the unmodified symbol first, then the
fuzzy character inserted at position `len-1` down to position `1`. -/
def fuzzyVariants (symbol fuzzy : String) : List String :=
  symbol :: ((List.range (symbol.length - 1)).reverse.map
    (fun j => symbol.take (j + 1) ++ fuzzy ++ symbol.drop (j + 1)))

/-- One iteration of the fuzzy loop body: look the variant up in
`sym_cache`; on a non-empty info list run the in-memory resolver and
succeed only when the match is non-`None` and marked actually trading. -/
def fuzzyHit (st : FuzzyState) (v : String) (asOf : Int) :
    Option SymInfo :=
  match alookup v st.symCache with
  | some infos =>
    if infos.isEmpty then none
    else
      let r := memLookupInfos infos asOf
      if r.1.isSome && r.2 then r.1 else none
  | none => none

/-- The fuzzy loop: first variant that yields a trading hit. -/
def firstFuzzyHit (st : FuzzyState) (asOf : Int) :
    List String → Option SymInfo
  | [] => none
  | v :: rest =>
    match fuzzyHit st v asOf with
    | some i => some i
    | none => firstFuzzyHit st asOf rest

/-- `lookup_symbol(symbol, as_of_date, fuzzy)` with a non-empty fuzzy
string: upper-case the symbol, consult the `fuzzy_match` memo (a hit —
including a memoized `None` — is returned as is), otherwise run the
variant loop and memoize its outcome (the for-else stores `None` when
every variant misses). -/
def lookupSymbolFuzzy (st : FuzzyState) (symbol0 fuzzy : String)
    (asOf : Int) : Option SymInfo × FuzzyState :=
  let symbol := symbol0.toUpper
  match alookup (symbol, fuzzy, asOf) st.fuzzyMatch with
  | some cached => (cached, st)
  | none =>
    let res := firstFuzzyHit st asOf (fuzzyVariants symbol fuzzy)
    (res, { st with fuzzyMatch := ((symbol, fuzzy, asOf), res) :: st.fuzzyMatch })

/-- Claim-side reformulation of a trading hit, used to state that the
loop returns the first variant whose in-memory match is marked actually
trading. -/
def tradingMatch (st : FuzzyState) (asOf : Int) (v : String) : Bool :=
  match alookup v st.symCache with
  | some infos =>
    !infos.isEmpty && (memLookupInfos infos asOf).1.isSome
      && (memLookupInfos infos asOf).2
  | none => false

/-! ### Futures chain resolution (`lookup_future_chain`) -/

/-- WHERE clause of the chain query: `root_symbol=:root_symbol and
expiration_date_nano >= :as_of_date and start_date_nano <=
:knowledge_date`. -/
def chainCond (root : String) (asOf knowledge : Int) (r : FutureRow) :
    Bool :=
  r.root_symbol == some root && sqlGeB r.expiration_date_nano asOf
    && sqlLeB r.start_date_nano knowledge

/-- `lookup_future_chain(root_symbol, as_of_date, knowledge_date)`:
matching sids ordered ascending by expiration date, each passed to
`futures_contract_for_id`.  The function contains no raise statement;
an unknown root symbol simply yields the empty list. -/
def lookupFutureChain (tbl : List FutureRow) (root : String)
    (asOf knowledge : Int) : List (Option FutureRec) :=
  (((tbl.filter (chainCond root asOf knowledge)).insertionSort
      (fun x y =>
        nullMinLe x.expiration_date_nano y.expiration_date_nano = true)).map
    (fun r => r.sid)).map (futuresForId tbl)

/-! ### Generic identifier resolution (`_lookup_generic_scalar`,
`lookup_generic`) -/

/-- A resolved asset handle. -/
inductive Asset where
  | equity (e : EquityRec)
  | future (f : FutureRec)
deriving Repr, DecidableEq

/-- One element of a generic-resolution input: a typed asset handle, an
integral sid, or a symbol string. -/
inductive Convertible where
  | handle (a : Asset)
  | intSid (n : Int)
  | symbol (s : String)
deriving Repr, DecidableEq

/-- Errors that escape `_lookup_generic_scalar` (only `SymbolNotFound`
is caught there). -/
inductive GenericErr where
  | sidNotFound (sid : Int)
  | multipleSymbolsFound
  | sqlSyntaxError
  | pyTypeError
deriving Repr, DecidableEq

/-- `asset_type_by_sid(sid)`: first `asset_router` row for the sid. -/
def assetTypeBySid (router : List RouterRow) (sid : Int) : Option String :=
  ((router.filter (fun r => r.sid == sid)).head?).map
    (fun r => r.asset_type)

/-- `retrieve_asset(sid)` with `default_none=False`: route by
`asset_type_by_sid`, fetch the typed record, and treat any failure as
`SidNotFound` (`none` here; the caller raises). -/
def retrieveAsset (st : Store) (sid : Int) : Option Asset :=
  match assetTypeBySid st.router sid with
  | some "equity" => (equityForId st.equities sid).map .equity
  | some "future" => (futuresForId st.futures sid).map .future
  | _ => none

/-- `_lookup_generic_scalar`: one element, appended to `matches` or
`missing`.  Only `SymbolNotFound` is caught; a `SidNotFound` from the
integral branch (and any sqlite / Python error from the symbol branch)
propagates, aborting the caller. -/
def lookupGenericScalar (st : Store) (asOf : Option Int) (x : Convertible)
    (ms : List Asset) (mi : List Convertible) :
    Except GenericErr (List Asset × List Convertible) :=
  match x with
  | .handle a => .ok (ms ++ [a], mi)
  | .intSid n =>
    match retrieveAsset st n with
    | some a => .ok (ms ++ [a], mi)
    | none => .error (.sidNotFound n)
  | .symbol s =>
    match asOf with
    | some d =>
      match dbLookupSymbolAsOf st.equities s d with
      | .asset sid =>
        match equityForId st.equities sid with
        | some e => .ok (ms ++ [.equity e], mi)
        | none => .ok (ms, mi)
      | .symbolNotFound => .ok (ms, mi ++ [x])
      | .multipleSymbolsFound => .error .multipleSymbolsFound
      | .sqlSyntaxError => .error .sqlSyntaxError
      | .pyTypeError => .error .pyTypeError
    | none =>
      match dbLookupSymbolNoDate st.equities s with
      | .asset sid =>
        match equityForId st.equities sid with
        | some e => .ok (ms ++ [.equity e], mi)
        | none => .ok (ms, mi)
      | .symbolNotFound => .ok (ms, mi ++ [x])
      | .multipleSymbolsFound => .error .multipleSymbolsFound
      | .sqlSyntaxError => .error .sqlSyntaxError
      | .pyTypeError => .error .pyTypeError

/-- The batch path of `lookup_generic`: `_lookup_generic_scalar` applied
to every element of the iterable, accumulating `matches` and `missing`;
an uncaught error from any element aborts the whole call. -/
def lookupGenericBatch (st : Store) (asOf : Option Int)
    (xs : List Convertible) :
    Except GenericErr (List Asset × List Convertible) :=
  xs.foldlM
    (fun acc x => lookupGenericScalar st asOf x acc.1 acc.2) ([], [])

/-! ### Metadata ingestion (`insert_metadata`) -/

/-- A raw metadata value as the ingestion filter sees it.  Python floats
are modelled by a rational value plus an explicit NaN flag (NaN has no
value).  `Float` is deliberately not used: only `is None`, `== ''` and
`isnan` are ever asked of a value. -/
inductive RawValue where
  | pynone
  | str (s : String)
  | int (n : Int)
  | float (isNan : Bool) (q : Rat)
deriving Repr, DecidableEq

/-- The `ASSET_FIELDS` whitelist, in source order. -/
def ASSET_FIELDS : List String :=
  ["sid", "asset_type", "symbol", "root_symbol", "asset_name",
   "start_date", "end_date", "first_traded", "exchange", "notice_date",
   "expiration_date", "contract_multiplier", "file_name", "company_name",
   "start_date_nano", "end_date_nano"]

/-- Value filter of `insert_metadata`: reject `None`, values equal to the
empty string (in Python only the empty string itself compares equal to
`''`; in particular `0 == ''` is false), and float NaN. -/
def acceptValue : RawValue → Bool
  | .pynone => false
  | .str s => s ≠ ""
  | .int _ => true
  | .float isNan _ => !isNan

/-- Python dict assignment `entry[k] = v` on an association-list entry
(replace in place, else append). -/
def setField (k : String) (v : RawValue) :
    List (String × RawValue) → List (String × RawValue)
  | [] => [(k, v)]
  | (k2, v2) :: rest =>
    if k2 = k then (k2, v) :: rest else (k2, v2) :: setField k v rest

/-- Python dict read `entry.get(k)`. -/
def getField (k : String) : List (String × RawValue) → Option RawValue
  | [] => none
  | (k2, v) :: rest => if k2 = k then some v else getField k rest

/-- The whitelist/value filter loop of `insert_metadata`: for each
keyword argument in order, keep it only if its key is in `ASSET_FIELDS`
and its value passes `acceptValue`; a rejected pair leaves the
accumulating entry untouched. -/
def filterStep (entry : List (String × RawValue))
    (kwargs : List (String × RawValue)) : List (String × RawValue) :=
  kwargs.foldl
    (fun e kv =>
      if ASSET_FIELDS.contains kv.1 && acceptValue kv.2 then
        setField kv.1 kv.2 e
      else e)
    entry

/-! ### Storage writes of `insert_metadata` (the INSERT statements) -/

/-- Column tuple the equity INSERT binds from a constructed record:
`asset.start_date.value if asset.start_date else None` — a timestamp is
always truthy in Python, so the optional value passes through. -/
def equityRowOfRec (a : EquityRec) : EquityRow :=
  ⟨a.sid, a.symbol, a.asset_name, a.start_date, a.end_date,
    a.first_traded, a.exchange⟩

def futureRowOfRec (a : FutureRec) : FutureRow :=
  ⟨a.sid, a.symbol, a.asset_name, a.start_date, a.end_date,
    a.first_traded, a.exchange, a.root_symbol, a.notice_date,
    a.expiration_date, a.contract_multiplier⟩

/-- The equity branch of `insert_metadata`: an unconditional `INSERT`
into `equities` and an unconditional `INSERT` into `asset_router` —
never an upsert, also when the sid is already present. -/
def insertEquityWrite (st : Store) (a : EquityRec) : Store :=
  { st with
    equities := st.equities ++ [equityRowOfRec a]
    router := st.router ++ [⟨a.sid, "equity"⟩] }

/-- The future branch of `insert_metadata`. -/
def insertFutureWrite (st : Store) (a : FutureRec) : Store :=
  { st with
    futures := st.futures ++ [futureRowOfRec a]
    router := st.router ++ [⟨a.sid, "future"⟩] }

/-- Number of `asset_router` rows carrying a sid. -/
def routerCount (st : Store) (sid : Int) : Nat :=
  (st.router.filter (fun r => r.sid == sid)).length

/-! ### Concrete fixtures used by counterexamples and witnesses -/

/-- Equity sid 1, symbol `A`, window `[0, 10]` (a zero start date is a
legitimate stored timestamp). -/
def rowA : EquityRow := ⟨1, some "A", some "NameA", some 0, some 10, none, some "X"⟩

/-- Equity sid 2, symbol `A`, window `[1, 10]`: overlaps `rowA`. -/
def rowB : EquityRow := ⟨2, some "A", some "NameB", some 1, some 10, none, some "X"⟩

/-- Two equities with the same symbol and overlapping windows. -/
def tblOverlap : List EquityRow := [rowA, rowB]

/-- Two equities sharing symbol `DUP` across all time. -/
def tblDup : List EquityRow :=
  [⟨1, some "DUP", none, some 0, some 10, none, none⟩,
   ⟨2, some "DUP", none, some 20, some 30, none, none⟩]

/-- A futures contract of root `CL`. -/
def rowCL : FutureRow :=
  ⟨40, some "CLH1", none, some 0, none, none, none, some "CL", none,
    some 50, none⟩

/-- Behaviour of the timestamp reconstruction on each kind of stored
value: a nonzero integer is reconstructed, NULL and `0` yield an absent
field. -/
def tsReconstructs (stored rebuilt : Option Int) : Prop :=
  (∀ v : Int, v ≠ 0 → stored = some v → rebuilt = some v) ∧
  ((stored = none ∨ stored = some 0) → rebuilt = none)

/-- Claim-side view of the in-memory match a variant produces: the asset
component of `_lookup_symbol_in_infos` over the variant's cached infos. -/
def memMatchAt (st : FuzzyState) (asOf : Int) (v : String) :
    Option SymInfo :=
  match alookup v st.symCache with
  | some infos => (memLookupInfos infos asOf).1
  | none => none

/-! ### Shared helper lemmas -/

theorem nullMinLe_total (a b : Option Int) :
    nullMinLe a b = true ∨ nullMinLe b a = true := by
  cases a <;> cases b <;> simp [nullMinLe]
  omega

theorem nullMinLe_trans {a b c : Option Int} (h1 : nullMinLe a b = true)
    (h2 : nullMinLe b c = true) : nullMinLe a c = true := by
  cases a <;> cases b <;> cases c <;> simp_all [nullMinLe]
  omega

theorem tsOfNano_reconstructs (v : Option Int) :
    tsReconstructs v (tsOfNano v) := by
  constructor
  · intro w hw hv
    subst hv
    simp [tsOfNano, truthyNano, hw]
  · rintro (h | h) <;> subst h <;> simp [tsOfNano, truthyNano]

/-! ### Claims -/

/-- C1.  The claim states that database-backed resolution with a supplied
as-of date follows the three-way branch, returning the latest-start /
latest-end equity in the multiple-candidates case.  The code's
multiple-candidates branch instead concatenates its SQL string without a
space between `"... end_date_nano desc"` and `"limit 1"`, producing the
malformed token `desclimit`, so sqlite raises an `OperationalError`
instead of returning anything: on a table with two equities whose windows
both contain the as-of date, resolution errors out rather than returning
the latest-start equity (sid 2). -/
theorem c1_lookup_symbol_multiple_branch_sql_bug :
    queryMultipleTiebreak =
      "select sid from equities where symbol=? and start_date_nano<=? order by start_date_nano desc, end_date_nano desclimit 1"
    ∧ queryMultipleTiebreak ≠ queryMultipleTiebreakIntended
    ∧ (exactCandidates tblOverlap "A" 5).length = 2
    ∧ dbLookupSymbolAsOf tblOverlap "A" 5 = .sqlSyntaxError := by
  refine ⟨rfl, by decide, by decide, by decide⟩

/-- C2 (counterexample).  The database-backed resolver and the in-memory
resolver do not agree on every input: on two equities with symbol `A` and
overlapping windows `[0,10]` and `[1,10]` at as-of date 5, the in-memory
resolver selects sid 2 (latest start, marked trading) while the
database-backed path raises a sqlite `OperationalError` from its
malformed tie-break query, so no instrument is selected. -/
theorem c2_resolvers_disagree_counterexample :
    dbMemAgree tblOverlap "A" 5 = false
    ∧ (memLookupInfos (infosFor tblOverlap "A") 5).1 = some ⟨2, some 1, some 10⟩
    ∧ dbLookupSymbolAsOf tblOverlap "A" 5 = .sqlSyntaxError := by
  refine ⟨by decide, by decide, by decide⟩

/-- C3 (counterexample).  A timestamp column stored as the non-null
integer `0` does not round-trip: `equity_for_id` tests the stored value
for truthiness, so a stored `0` nanosecond start date comes back as an
absent `start_date`, not as the epoch timestamp that was inserted. -/
theorem c3_zero_timestamp_not_roundtripped_counterexample :
    rowA.start_date_nano = some 0
    ∧ (equityForId [rowA] 1).map (fun rec => rec.start_date) = some none := by
  refine ⟨rfl, by decide⟩

/-- C4.  The claim states that resolving with no as-of date returns the
unique match, raises `MultipleSymbolsFound` on an ambiguous symbol, and
raises `SymbolNotFound` on an unknown symbol — which is what the
function's own docstring promises.  The code instead calls `fetchone()`
and tests `len(data) == 1` on the resulting one-column row dict: with two
equities sharing symbol `DUP` it silently returns the first row (sid 1)
instead of raising `MultipleSymbolsFound`, and with no match `data` is
`None`, so `len(None)` raises `TypeError` instead of `SymbolNotFound`. -/
theorem c4_no_date_lookup_bug :
    dbLookupSymbolNoDate tblDup "DUP" = .asset 1
    ∧ dbLookupSymbolNoDate tblDup "ZZZ" = .pyTypeError := by
  refine ⟨by decide, by decide⟩

/-- C5.  The claim (and the docstrings of `_lookup_generic_scalar` and
`lookup_generic`) say an element that fails to resolve is appended to the
missing list and never aborts the batch.  But the scalar helper catches
only `SymbolNotFound`, while an integral sid with no stored record makes
`retrieve_asset` raise `SidNotFound`, which propagates and aborts the
whole batch call: batch-resolving `[42]` against an empty store raises
instead of returning `([], [42])`, whereas a symbol miss is indeed
collected. -/
theorem c5_batch_lookup_sid_miss_raises_bug :
    lookupGenericBatch emptyStore (some 0) [.intSid 42]
      = .error (.sidNotFound 42)
    ∧ lookupGenericBatch emptyStore (some 0) [.symbol "Q"]
      = .ok ([], [.symbol "Q"]) := by
  refine ⟨rfl, rfl⟩

/-- C7 (counterexample).  Futures-chain lookup on a root symbol entirely
unknown to the store does not raise `RootSymbolNotFound` (the function
body contains no raise at all — its outcome type carries no error): on a
store that knows only root `CL`, looking up root `ES` returns the empty
list. -/
theorem c7_unknown_root_counterexample :
    lookupFutureChain [rowCL] "ES" 0 100 = [] := by
  decide

/-- C7 (amended).  For every root symbol entirely unknown to the store,
futures-chain lookup returns the empty list (it never raises;
`RootSymbolNotFound` is imported by the module but never used). -/
theorem c7_unknown_root_returns_empty (tbl : List FutureRow)
    (root : String) (asOf knowledge : Int)
    (h : ∀ r ∈ tbl, r.root_symbol ≠ some root) :
    lookupFutureChain tbl root asOf knowledge = [] := by
  have hf : tbl.filter (chainCond root asOf knowledge) = [] := by
    refine List.filter_eq_nil_iff.mpr (fun r hr => ?_)
    have := h r hr
    simp [chainCond]
    intro hroot
    exact absurd hroot this
  simp [lookupFutureChain, hf, List.insertionSort]

/-- C7 (witness for the amended theorem). -/
theorem c7_unknown_root_returns_empty_witness :
    (∀ r ∈ [rowCL], r.root_symbol ≠ some "ES")
    ∧ lookupFutureChain [rowCL] "ES" 7 100 = [] :=
  ⟨by decide, c7_unknown_root_returns_empty [rowCL] "ES" 7 100 (by decide)⟩

/-- C8.  The claim (and the spec's router invariant) says every sid in an
instrument table has exactly one matching `asset_router` entry, preserved
by every insert including re-ingestion.  `insert_metadata` always
executes plain `INSERT` statements, so re-ingesting sid 1 leaves two rows
for it in `equities` and two `(1, equity)` rows in `asset_router`,
violating the exactly-one invariant. -/
theorem c8_router_duplicate_on_reinsert_bug :
    routerCount
        (insertEquityWrite (insertEquityWrite emptyStore (equityRecOfRow rowA))
          (equityRecOfRow rowA)) 1 = 2
    ∧ ((insertEquityWrite (insertEquityWrite emptyStore (equityRecOfRow rowA))
          (equityRecOfRow rowA)).equities.filter (fun r => r.sid == 1)).length
        = 2 := by
  refine ⟨by decide, by decide⟩

/-- C3 (amended).  For a sid stored exactly once, `equity_for_id` /
`futures_contract_for_id` round-trips every non-timestamp field; each
timestamp column stored as a **nonzero** integer is reconstructed to its
stored nanosecond value; a timestamp column stored as NULL *or as `0`*
yields an absent field (the truthiness test conflates the two); and the
equity path never populates `first_traded` (its `first_traded_nano`
column is fetched but never renamed). -/
theorem c3_by_sid_roundtrip_amended (etbl : List EquityRow)
    (ftbl : List FutureRow) (re : EquityRow) (rf : FutureRow)
    (he : etbl.filter (fun x => x.sid == re.sid) = [re])
    (hf : ftbl.filter (fun x => x.sid == rf.sid) = [rf]) :
    (∃ rec, equityForId etbl re.sid = some rec
      ∧ rec.sid = re.sid ∧ rec.symbol = re.symbol
      ∧ rec.asset_name = re.asset_name ∧ rec.exchange = re.exchange
      ∧ tsReconstructs re.start_date_nano rec.start_date
      ∧ tsReconstructs re.end_date_nano rec.end_date
      ∧ rec.first_traded = none)
    ∧ (∃ rec, futuresForId ftbl rf.sid = some rec
      ∧ rec.sid = rf.sid ∧ rec.symbol = rf.symbol
      ∧ rec.asset_name = rf.asset_name ∧ rec.exchange = rf.exchange
      ∧ rec.root_symbol = rf.root_symbol
      ∧ rec.contract_multiplier = rf.contract_multiplier
      ∧ tsReconstructs rf.start_date_nano rec.start_date
      ∧ tsReconstructs rf.end_date_nano rec.end_date
      ∧ tsReconstructs rf.first_traded_nano rec.first_traded
      ∧ tsReconstructs rf.notice_date_nano rec.notice_date
      ∧ tsReconstructs rf.expiration_date_nano rec.expiration_date) := by
  constructor
  · refine ⟨equityRecOfRow re, ?_, rfl, rfl, rfl, rfl,
      tsOfNano_reconstructs _, tsOfNano_reconstructs _, rfl⟩
    simp [equityForId, he]
  · refine ⟨futureRecOfRow rf, ?_, rfl, rfl, rfl, rfl, rfl, rfl,
      tsOfNano_reconstructs _, tsOfNano_reconstructs _,
      tsOfNano_reconstructs _, tsOfNano_reconstructs _,
      tsOfNano_reconstructs _⟩
    simp [futuresForId, hf]

/-- C3 (witness for the amended theorem, at a one-row equity table and a
one-row futures table). -/
theorem c3_by_sid_roundtrip_amended_witness :
    ([rowB].filter (fun x => x.sid == rowB.sid) = [rowB])
    ∧ ([rowCL].filter (fun x => x.sid == rowCL.sid) = [rowCL])
    ∧ ((∃ rec, equityForId [rowB] rowB.sid = some rec
      ∧ rec.sid = rowB.sid ∧ rec.symbol = rowB.symbol
      ∧ rec.asset_name = rowB.asset_name ∧ rec.exchange = rowB.exchange
      ∧ tsReconstructs rowB.start_date_nano rec.start_date
      ∧ tsReconstructs rowB.end_date_nano rec.end_date
      ∧ rec.first_traded = none)
    ∧ (∃ rec, futuresForId [rowCL] rowCL.sid = some rec
      ∧ rec.sid = rowCL.sid ∧ rec.symbol = rowCL.symbol
      ∧ rec.asset_name = rowCL.asset_name ∧ rec.exchange = rowCL.exchange
      ∧ rec.root_symbol = rowCL.root_symbol
      ∧ rec.contract_multiplier = rowCL.contract_multiplier
      ∧ tsReconstructs rowCL.start_date_nano rec.start_date
      ∧ tsReconstructs rowCL.end_date_nano rec.end_date
      ∧ tsReconstructs rowCL.first_traded_nano rec.first_traded
      ∧ tsReconstructs rowCL.notice_date_nano rec.notice_date
      ∧ tsReconstructs rowCL.expiration_date_nano rec.expiration_date)) :=
  ⟨by decide, by decide,
    c3_by_sid_roundtrip_amended [rowB] [rowCL] rowB rowCL (by decide)
      (by decide)⟩

/-- With pairwise-distinct sids, filtering the futures table by a member
row's sid yields exactly that row. -/
theorem futures_filter_sid_singleton :
    ∀ (tbl : List FutureRow) (r : FutureRow),
      (tbl.map (fun x => x.sid)).Nodup → r ∈ tbl →
      tbl.filter (fun x => x.sid == r.sid) = [r]
  | [], _, _, hr => absurd hr (List.not_mem_nil _)
  | t :: ts, r, hnd, hr => by
    rw [List.map_cons, List.nodup_cons] at hnd
    rcases List.mem_cons.mp hr with hrt | hrts
    · subst hrt
      have hts : ts.filter (fun x => x.sid == r.sid) = [] := by
        refine List.filter_eq_nil_iff.mpr (fun x hx => ?_)
        simp only [beq_iff_eq]
        intro hxr
        exact hnd.1 (hxr ▸ List.mem_map_of_mem (fun y => y.sid) hx)
      simp [List.filter_cons, hts]
    · have hne : (t.sid == r.sid) = false := by
        refine beq_eq_false_iff_ne.mpr (fun hts => ?_)
        exact hnd.1 (hts ▸ List.mem_map_of_mem (fun y => y.sid) hrts)
      rw [List.filter_cons_of_neg (by simp [hne])]
      exact futures_filter_sid_singleton ts r hnd.2 hrts

/-- C6.  For a futures table with pairwise-distinct sids, chain lookup
returns exactly the contracts of the requested root symbol whose
expiration date is on or after the as-of date and whose start date is on
or before the knowledge date (as a permutation of the filtered table,
i.e. nothing else), ordered ascending by expiration date, each resolved
to the full typed record of its row. -/
theorem c6_future_chain_correct (tbl : List FutureRow) (root : String)
    (asOf knowledge : Int) (h : (tbl.map (fun r => r.sid)).Nodup) :
    ∃ rows : List FutureRow,
      rows.Perm (tbl.filter (chainCond root asOf knowledge))
      ∧ rows.Pairwise (fun x y =>
          nullMinLe x.expiration_date_nano y.expiration_date_nano = true)
      ∧ (∀ r ∈ rows, chainCond root asOf knowledge r = true)
      ∧ lookupFutureChain tbl root asOf knowledge
          = rows.map (fun r => some (futureRecOfRow r)) := by
  haveI htot : IsTotal FutureRow (fun x y =>
      nullMinLe x.expiration_date_nano y.expiration_date_nano = true) :=
    ⟨fun x y => nullMinLe_total _ _⟩
  haveI htr : IsTrans FutureRow (fun x y =>
      nullMinLe x.expiration_date_nano y.expiration_date_nano = true) :=
    ⟨fun _ _ _ h1 h2 => nullMinLe_trans h1 h2⟩
  refine ⟨(tbl.filter (chainCond root asOf knowledge)).insertionSort
      (fun x y => nullMinLe x.expiration_date_nano y.expiration_date_nano = true),
    List.perm_insertionSort _ _, List.sorted_insertionSort _ _, ?_, ?_⟩
  · intro r hrmem
    exact (List.mem_filter.mp ((List.mem_insertionSort _).mp hrmem)).2
  · show ((((tbl.filter (chainCond root asOf knowledge)).insertionSort _).map
        (fun r => r.sid)).map (futuresForId tbl)) = _
    rw [List.map_map]
    refine List.map_congr_left (fun r hrmem => ?_)
    have hmem : r ∈ tbl :=
      (List.mem_filter.mp ((List.mem_insertionSort _).mp hrmem)).1
    show futuresForId tbl r.sid = some (futureRecOfRow r)
    rw [futuresForId, futures_filter_sid_singleton tbl r h hmem]
    rfl

/-- C6 (witness: three `ES` contracts expiring at 10 < 20 < 30, as-of
date 15, knowledge date 100 — the chain is the M2, M3 records in that
order). -/
theorem c6_future_chain_correct_witness :
    (([⟨10, some "ESM1", none, some 0, none, none, none, some "ES", none,
        some 10, none⟩,
      ⟨12, some "ESM3", none, some 5, none, none, none, some "ES", none,
        some 30, none⟩,
      ⟨11, some "ESM2", none, some 0, none, none, none, some "ES", none,
        some 20, none⟩] : List FutureRow).map (fun r => r.sid)).Nodup
    ∧ ∃ rows : List FutureRow,
      rows.Perm (([⟨10, some "ESM1", none, some 0, none, none, none,
          some "ES", none, some 10, none⟩,
        ⟨12, some "ESM3", none, some 5, none, none, none, some "ES", none,
          some 30, none⟩,
        ⟨11, some "ESM2", none, some 0, none, none, none, some "ES", none,
          some 20, none⟩] : List FutureRow).filter (chainCond "ES" 15 100))
      ∧ rows.Pairwise (fun x y =>
          nullMinLe x.expiration_date_nano y.expiration_date_nano = true)
      ∧ (∀ r ∈ rows, chainCond "ES" 15 100 r = true)
      ∧ lookupFutureChain [⟨10, some "ESM1", none, some 0, none, none,
          none, some "ES", none, some 10, none⟩,
        ⟨12, some "ESM3", none, some 5, none, none, none, some "ES", none,
          some 30, none⟩,
        ⟨11, some "ESM2", none, some 0, none, none, none, some "ES", none,
          some 20, none⟩] "ES" 15 100
          = rows.map (fun r => some (futureRecOfRow r)) :=
  ⟨by decide, c6_future_chain_correct _ "ES" 15 100 (by decide)⟩

/-- C2 (amended).  The database-backed resolver and the in-memory
resolver agree whenever the two semantics coincide and no tie-break is
needed: if every stored row of the symbol has non-NULL start and end
dates (the SQL exact-match query silently drops NULL-dated rows while
the in-memory path treats an absent bound as unbounded) and exactly one
stored window contains the as-of date, both resolvers select that row.
In the multiple-candidates branch they diverge (see the
counterexample). -/
theorem c2_resolvers_agree_on_unique_candidate (tbl : List EquityRow)
    (sym : String) (asOf : Int)
    (hdates : ∀ r ∈ tbl, r.symbol = some sym →
      r.start_date_nano.isSome ∧ r.end_date_nano.isSome)
    (hone : (exactCandidates tbl sym asOf).length = 1) :
    dbMemAgree tbl sym asOf = true := by
  obtain ⟨r, hr⟩ := List.length_eq_one.mp hone
  have hdb : dbLookupSymbolAsOf tbl sym asOf = .asset r.sid := by
    unfold dbLookupSymbolAsOf
    rw [hr]
  have hfc : (tbl.filter (fun row => row.symbol == some sym)).filter
      (memCandB asOf ∘ rowToInfo) = exactCandidates tbl sym asOf := by
    rw [List.filter_filter]
    unfold exactCandidates
    refine List.filter_congr (fun x hx => ?_)
    by_cases hsym : x.symbol = some sym
    · obtain ⟨hs, hend⟩ := hdates x hx hsym
      obtain ⟨s, hs2⟩ := Option.isSome_iff_exists.mp hs
      obtain ⟨e, he2⟩ := Option.isSome_iff_exists.mp hend
      simp [memCandB, rowToInfo, exactCond, sqlLeB, sqlGeB, hsym, hs2,
        he2, Function.comp, ge_iff_le, Bool.and_comm]
    · have hb : (x.symbol == some sym) = false := by
        simpa using hsym
      simp [exactCond, hb, Function.comp]
  have hinf : (infosFor tbl sym).filter (memCandB asOf)
      = [rowToInfo r] := by
    unfold infosFor
    rw [List.filter_map, hfc, hr]
    rfl
  have hcand : memCandidates (infosFor tbl sym) asOf = [rowToInfo r] := by
    refine List.perm_singleton.mp ?_
    have hperm : (memCandidates (infosFor tbl sym) asOf).Perm
        ((infosFor tbl sym).filter (memCandB asOf)) := by
      unfold memCandidates memSorted
      exact (List.perm_insertionSort _ _).filter _
    rw [hinf] at hperm
    exact hperm
  have hmem : memLookupInfos (infosFor tbl sym) asOf
      = (some (rowToInfo r), true) := by
    unfold memLookupInfos
    rw [hcand]
  unfold dbMemAgree
  rw [hdb, hmem]
  simp [rowToInfo]

/-- C2 (witness for the amended theorem: a single equity with symbol `B`
and window `[0, 10]`, resolved at 5). -/
theorem c2_resolvers_agree_on_unique_candidate_witness :
    (∀ r ∈ [(⟨3, some "B", none, some 0, some 10, none, none⟩ : EquityRow)],
      r.symbol = some "B" →
      r.start_date_nano.isSome ∧ r.end_date_nano.isSome)
    ∧ (exactCandidates
        [(⟨3, some "B", none, some 0, some 10, none, none⟩ : EquityRow)]
        "B" 5).length = 1
    ∧ dbMemAgree
        [(⟨3, some "B", none, some 0, some 10, none, none⟩ : EquityRow)]
        "B" 5 = true :=
  ⟨by decide, by decide,
    c2_resolvers_agree_on_unique_candidate _ "B" 5 (by decide) (by decide)⟩

theorem getField_setField_self (k : String) (v : RawValue) :
    ∀ e, getField k (setField k v e) = some v
  | [] => by simp [setField, getField]
  | (k2, v2) :: rest => by
    by_cases h : k2 = k <;>
      simp [setField, getField, h, getField_setField_self k v rest]

theorem getField_setField_ne (k k2 : String) (v : RawValue) (h : k2 ≠ k) :
    ∀ e, getField k (setField k2 v e) = getField k e
  | [] => by simp [setField, getField, h]
  | (k3, v3) :: rest => by
    by_cases h3 : k3 = k2
    · subst h3
      simp [setField, getField, h]
    · by_cases hk : k3 = k <;>
        simp [setField, getField, h3, hk, h, Ne.symm h,
          getField_setField_ne k k2 v h rest]

/-- One step of the filter loop, unfolded. -/
theorem filterStep_cons (entry : List (String × RawValue))
    (kv : String × RawValue) (rest : List (String × RawValue)) :
    filterStep entry (kv :: rest)
      = filterStep
          (if ASSET_FIELDS.contains kv.1 && acceptValue kv.2 then
            setField kv.1 kv.2 entry
          else entry) rest := rfl

/-- A key whose supplied values are all rejected (unknown field, `None`,
empty string, or NaN) keeps exactly the value the accumulated entry
already had. -/
theorem filterStep_preserves (k : String) :
    ∀ (kwargs : List (String × RawValue)) (entry : List (String × RawValue)),
      (∀ kv ∈ kwargs, kv.1 = k →
        ASSET_FIELDS.contains k = false ∨ acceptValue kv.2 = false) →
      getField k (filterStep entry kwargs) = getField k entry
  | [], _, _ => rfl
  | (k2, v2) :: rest, entry, h => by
    rw [filterStep_cons]
    have hrest : ∀ kv ∈ rest, kv.1 = k →
        ASSET_FIELDS.contains k = false ∨ acceptValue kv.2 = false :=
      fun kv hv => h kv (List.mem_cons_of_mem _ hv)
    by_cases hk : k2 = k
    · subst hk
      have hcond : (ASSET_FIELDS.contains k2 && acceptValue v2) = false := by
        rcases h (k2, v2) (List.mem_cons_self _ _) rfl with hno | hno
        · rw [hno, Bool.false_and]
        · rw [hno, Bool.and_false]
      rw [hcond]
      simp only [Bool.false_eq_true, if_false]
      exact filterStep_preserves k2 rest entry hrest
    · by_cases hc : (ASSET_FIELDS.contains k2 && acceptValue v2) = true
      · rw [hc]
        simp only [if_true]
        rw [filterStep_preserves k rest _ hrest]
        exact getField_setField_ne k k2 v2 hk entry
      · rw [Bool.not_eq_true] at hc
        rw [hc]
        simp only [Bool.false_eq_true, if_false]
        exact filterStep_preserves k rest entry hrest

/-- C9.  The ingestion filter drops unknown fields and `None` /
empty-string / NaN values, and a dropped pair never overwrites the
previously accumulated value of its key (keys not supplied at all are
likewise untouched); the null/empty test is is-none rather than
is-falsy, so a raw integer `0` — in particular `start_date_nano=0` — is
accepted and stored as provided. -/
theorem c9_ingestion_filter (entry kwargs : List (String × RawValue))
    (k : String)
    (h : ∀ kv ∈ kwargs, kv.1 = k →
      ASSET_FIELDS.contains k = false ∨ acceptValue kv.2 = false) :
    getField k (filterStep entry kwargs) = getField k entry
    ∧ acceptValue (RawValue.int 0) = true
    ∧ ASSET_FIELDS.contains "start_date_nano" = true
    ∧ (∀ e, getField "start_date_nano"
        (filterStep e [("start_date_nano", RawValue.int 0)])
        = some (RawValue.int 0)) := by
  refine ⟨filterStep_preserves k kwargs entry h, rfl, by decide, ?_⟩
  intro e
  show getField "start_date_nano"
    (setField "start_date_nano" (RawValue.int 0) e) = some (RawValue.int 0)
  exact getField_setField_self _ _ e

/-- C9 (witness: an entry holding `symbol` and `end_date`, fed kwargs
whose `symbol` value is `None`, whose `bogus` key is not whitelisted, and
whose `asset_name` is the empty string — the accumulated `symbol`
survives, and a zero `start_date_nano` is accepted). -/
theorem c9_ingestion_filter_witness :
    (∀ kv ∈ [("symbol", RawValue.pynone), ("bogus", RawValue.int 3),
          ("asset_name", RawValue.str "")], kv.1 = "symbol" →
      ASSET_FIELDS.contains "symbol" = false ∨ acceptValue kv.2 = false)
    ∧ (getField "symbol"
        (filterStep [("symbol", RawValue.str "OLD"), ("end_date", RawValue.int 7)]
          [("symbol", RawValue.pynone), ("bogus", RawValue.int 3),
            ("asset_name", RawValue.str "")])
        = getField "symbol"
            [("symbol", RawValue.str "OLD"), ("end_date", RawValue.int 7)]
      ∧ acceptValue (RawValue.int 0) = true
      ∧ ASSET_FIELDS.contains "start_date_nano" = true
      ∧ (∀ e, getField "start_date_nano"
          (filterStep e [("start_date_nano", RawValue.int 0)])
          = some (RawValue.int 0))) :=
  ⟨by decide,
    c9_ingestion_filter [("symbol", RawValue.str "OLD"),
      ("end_date", RawValue.int 7)]
      [("symbol", RawValue.pynone), ("bogus", RawValue.int 3),
        ("asset_name", RawValue.str "")] "symbol" (by decide)⟩

theorem fuzzyHit_of_not_trading (st : FuzzyState) (asOf : Int) (v : String)
    (h : tradingMatch st asOf v = false) : fuzzyHit st v asOf = none := by
  unfold tradingMatch at h
  unfold fuzzyHit
  cases hl : alookup v st.symCache with
  | none => rfl
  | some infos =>
    rw [hl] at h
    by_cases hemp : infos.isEmpty
    · simp [hemp]
    · simp only [hemp, Bool.not_false, Bool.true_and] at h
      simp only [Bool.if_false_left, Bool.and_eq_true, Bool.not_eq_true,
        hemp]
      rcases Bool.and_eq_false_iff.mp h with h1 | h1 <;>
        simp [h1]

theorem fuzzyHit_of_trading (st : FuzzyState) (asOf : Int) (v : String)
    (h : tradingMatch st asOf v = true) :
    fuzzyHit st v asOf = memMatchAt st asOf v
    ∧ (memMatchAt st asOf v).isSome = true := by
  unfold tradingMatch at h
  unfold fuzzyHit memMatchAt
  cases hl : alookup v st.symCache with
  | none => rw [hl] at h; exact absurd h (by simp)
  | some infos =>
    rw [hl] at h
    obtain ⟨⟨hemp, hsome⟩, hflag⟩ := by
      simpa [Bool.and_eq_true] using h
    simp [hemp, hsome, hflag]

theorem firstFuzzyHit_find (st : FuzzyState) (asOf : Int) :
    ∀ vs : List String,
      firstFuzzyHit st asOf vs
        = ((vs.find? (tradingMatch st asOf)).bind (memMatchAt st asOf))
  | [] => rfl
  | v :: rest => by
    cases htm : tradingMatch st asOf v
    · have h1 := fuzzyHit_of_not_trading st asOf v htm
      simp [firstFuzzyHit, h1, List.find?, htm,
        firstFuzzyHit_find st asOf rest]
    · obtain ⟨h1, h2⟩ := fuzzyHit_of_trading st asOf v htm
      obtain ⟨i, hi⟩ := Option.isSome_iff_exists.mp h2
      simp [firstFuzzyHit, h1, hi, List.find?, htm]

/-- C10.  Fuzzy resolution with an uncached `(symbol, fuzzy, as_of)`
triple returns the in-memory match of the **first** variant — in the
order: unmodified symbol, then the fuzzy character inserted at position
`len-1` down to `1` — whose match is marked actually trading (`none`
when every variant misses); the outcome, unresolved included, is stored
in the `fuzzy_match` memo under the triple, and an immediately repeated
identical query returns exactly the memoized outcome without touching
the state again. -/
theorem c10_fuzzy_resolution (st : FuzzyState) (symbol0 fuzzy : String)
    (asOf : Int)
    (h : alookup (symbol0.toUpper, fuzzy, asOf) st.fuzzyMatch = none) :
    (lookupSymbolFuzzy st symbol0 fuzzy asOf).1
      = (((fuzzyVariants symbol0.toUpper fuzzy).find?
          (tradingMatch st asOf)).bind (memMatchAt st asOf))
    ∧ alookup (symbol0.toUpper, fuzzy, asOf)
        (lookupSymbolFuzzy st symbol0 fuzzy asOf).2.fuzzyMatch
      = some (lookupSymbolFuzzy st symbol0 fuzzy asOf).1
    ∧ lookupSymbolFuzzy (lookupSymbolFuzzy st symbol0 fuzzy asOf).2
        symbol0 fuzzy asOf
      = ((lookupSymbolFuzzy st symbol0 fuzzy asOf).1,
          (lookupSymbolFuzzy st symbol0 fuzzy asOf).2) := by
  have hrun : lookupSymbolFuzzy st symbol0 fuzzy asOf
      = (firstFuzzyHit st asOf (fuzzyVariants symbol0.toUpper fuzzy),
          { st with fuzzyMatch := ((symbol0.toUpper, fuzzy, asOf),
              firstFuzzyHit st asOf (fuzzyVariants symbol0.toUpper fuzzy))
                :: st.fuzzyMatch }) := by
    unfold lookupSymbolFuzzy
    simp only [h]
  refine ⟨?_, ?_, ?_⟩
  · rw [hrun]
    exact firstFuzzyHit_find st asOf _
  · rw [hrun]
    simp [alookup]
  · rw [hrun]
    unfold lookupSymbolFuzzy
    simp [alookup]

/-- C10 (witness: symbol `CMCSA`, fuzzy character `_`, as-of date 5,
against a symbol cache containing only `CMCS_A` with window `[0, 10]`
and an empty memo). -/
theorem c10_fuzzy_resolution_witness :
    alookup ("CMCSA".toUpper, "_", (5 : Int))
        (FuzzyState.mk [("CMCS_A", [⟨7, some 0, some 10⟩])] []).fuzzyMatch
      = none
    ∧ ((lookupSymbolFuzzy
          (FuzzyState.mk [("CMCS_A", [⟨7, some 0, some 10⟩])] [])
          "CMCSA" "_" 5).1
        = ((fuzzyVariants "CMCSA".toUpper "_").find?
            (tradingMatch
              (FuzzyState.mk [("CMCS_A", [⟨7, some 0, some 10⟩])] []) 5)).bind
          (memMatchAt
            (FuzzyState.mk [("CMCS_A", [⟨7, some 0, some 10⟩])] []) 5)
      ∧ alookup ("CMCSA".toUpper, "_", (5 : Int))
          (lookupSymbolFuzzy
            (FuzzyState.mk [("CMCS_A", [⟨7, some 0, some 10⟩])] [])
            "CMCSA" "_" 5).2.fuzzyMatch
        = some (lookupSymbolFuzzy
            (FuzzyState.mk [("CMCS_A", [⟨7, some 0, some 10⟩])] [])
            "CMCSA" "_" 5).1
      ∧ lookupSymbolFuzzy
          (lookupSymbolFuzzy
            (FuzzyState.mk [("CMCS_A", [⟨7, some 0, some 10⟩])] [])
            "CMCSA" "_" 5).2 "CMCSA" "_" 5
        = ((lookupSymbolFuzzy
              (FuzzyState.mk [("CMCS_A", [⟨7, some 0, some 10⟩])] [])
              "CMCSA" "_" 5).1,
            (lookupSymbolFuzzy
              (FuzzyState.mk [("CMCS_A", [⟨7, some 0, some 10⟩])] [])
              "CMCSA" "_" 5).2)) :=
  ⟨rfl, c10_fuzzy_resolution
    (FuzzyState.mk [("CMCS_A", [⟨7, some 0, some 10⟩])] [])
    "CMCSA" "_" 5 rfl⟩
